import Mathlib

/-!
Verification of the mcp-server-make core: path-boundary validation,
environment sanitization, the Makefile target parser, the target
execution manager, and the tool-call dispatcher, shallowly embedded
from `src/mcp_server_make/{security,make,execution,handlers,server}.py`.

Strings are modelled over their character lists; Python string helpers
(`strip`, `startswith`, `split`, `splitlines`) are re-implemented below
with Python's semantics so that every definition is executable by the
kernel.
-/

/-- Characters stripped by Python's str.strip() with no argument
(the ASCII whitespace set; the Makefile texts in scope contain no
non-ASCII whitespace). -/
def pyIsSpace (c : Char) : Bool :=
  c = ' ' || c = '\t' || c = '\n' || c = '\x0d' || c = '\x0b' || c = '\x0c'

/-- Python str.strip() on a character list: drop leading and trailing
whitespace. -/
def stripData (l : List Char) : List Char :=
  ((l.dropWhile pyIsSpace).reverse.dropWhile pyIsSpace).reverse

/-- Python str.strip(). -/
def pyStrip (s : String) : String :=
  String.mk (stripData s.data)

/-- Boolean list-prefix test: listLeads p l is true when p is an initial
segment of l. -/
def listLeads {α : Type} [DecidableEq α] : List α → List α → Bool
  | [], _ => true
  | _ :: _, [] => false
  | a :: as, b :: bs => a = b && listLeads as bs

/-- Python s.startswith(p). -/
def startsWithStr (s p : String) : Bool :=
  listLeads p.data s.data

/-- Auxiliary splitter: split a character list at every occurrence of the
separator character, keeping empty pieces (Python str.split semantics). -/
def splitCharAux (sep : Char) (acc : List Char) : List Char → List (List Char)
  | [] => [acc.reverse]
  | x :: xs =>
    if x = sep then acc.reverse :: splitCharAux sep [] xs
    else splitCharAux sep (x :: acc) xs

/-- Split a character list at a separator character. -/
def splitChar (sep : Char) (l : List Char) : List (List Char) :=
  splitCharAux sep [] l

/-- Segments of a subpath string, split at the slash character
(pathlib treats repeated or trailing slashes as empty segments, which
resolution later discards). -/
def subpathSegs (s : String) : List String :=
  (splitChar '/' s.data).map String.mk

/-- One step of pathlib's Path.resolve() over already-split segments:
a dot-dot segment pops the last kept segment (at the root it is a no-op),
a single dot or an empty segment is discarded, anything else is kept.
Symbolic links are not modelled. -/
def resolveStep (acc : List String) (s : String) : List String :=
  if s = ".." then acc.dropLast
  else if s = "." || s = "" then acc
  else acc ++ [s]

/-- pathlib Path.resolve() over segments: collapse dot and dot-dot
segments, producing the canonical absolute segment list. -/
def resolveSegs (segs : List String) : List String :=
  segs.foldl resolveStep []

/-- Python str(Path) for an absolute path held as its segment list:
"/" for the root, "/a/b" otherwise. -/
def pathStr (p : List String) : String :=
  String.mk ('/' :: (String.intercalate "/" p).data)

/-- Inner body of security.get_validated_path before its blanket
exception handler: resolve the base, resolve base / subpath (an
absolute subpath replaces the base, as pathlib's / operator does),
then apply the source's containment test
str(requested).startswith(str(base)). -/
def get_validated_path_inner (base_dir : List String) (subpath : Option String) :
    Except String (List String) :=
  let base := resolveSegs base_dir
  match subpath with
  | none => Except.ok base
  | some sub =>
    let requested :=
      if startsWithStr sub "/" then resolveSegs (subpathSegs sub)
      else resolveSegs (base ++ subpathSegs sub)
    if startsWithStr (pathStr requested) (pathStr base) then Except.ok requested
    else Except.error "Path access denied: outside project boundary"

/-- security.get_validated_path: the whole body runs inside
try/except Exception, which re-raises every failure (including the
boundary SecurityError raised inside the try block) as
SecurityError("Invalid path: " ++ message). Errors are modelled as the
SecurityError message text. -/
def get_validated_path (base_dir : List String) (subpath : Option String) :
    Except String (List String) :=
  match get_validated_path_inner base_dir subpath with
  | Except.ok p => Except.ok p
  | Except.error e => Except.error (String.mk ("Invalid path: ".data ++ e.data))

instance {ε α : Type} [DecidableEq ε] [DecidableEq α] : DecidableEq (Except ε α) := fun a b =>
  match a, b with
  | Except.ok x, Except.ok y =>
    if h : x = y then isTrue (by rw [h]) else isFalse (by intro hh; cases hh; exact h rfl)
  | Except.error x, Except.error y =>
    if h : x = y then isTrue (by rw [h]) else isFalse (by intro hh; cases hh; exact h rfl)
  | Except.ok _, Except.error _ => isFalse (by intro h; cases h)
  | Except.error _, Except.ok _ => isFalse (by intro h; cases h)

example : get_validated_path ["a", "b"] (some "../bb") = Except.ok ["a", "bb"] := by decide

example : get_validated_path ["a", "b"] (some "../../etc") =
    Except.error "Invalid path: Path access denied: outside project boundary" := by decide

/-- The key filter of security.get_safe_environment:
key.startswith(("LD_", "DYLD_", "PATH")). -/
def dangerousKey (k : String) : Bool :=
  startsWithStr k "LD_" || startsWithStr k "DYLD_" || startsWithStr k "PATH"

/-- Python del env[key] on an environment mapping modelled as an
association list (dictionary keys are unique, so removing every pair
with the key is the dictionary deletion). -/
def delKey (e : List (String × String)) (k : String) : List (String × String) :=
  e.filter (fun kv => kv.1 ≠ k)

/-- One iteration of the deletion loop in security.get_safe_environment. -/
def envStep (e : List (String × String)) (k : String) : List (String × String) :=
  if dangerousKey k then delKey e k else e

/-- security.get_safe_environment: copy the environment, then iterate
over its keys deleting every key with a dangerous name. -/
def get_safe_environment (env : List (String × String)) : List (String × String) :=
  (env.map Prod.fst).foldl envStep env

example : get_safe_environment
    [("PATH", "/usr/bin"), ("HOME", "/root"), ("LD_PRELOAD", "x"), ("PATHEXT", "y")] =
    [("HOME", "/root")] := by decide

/-- ASCII letter or digit, the character class [a-zA-Z0-9]. -/
def isAsciiAlnum (c : Char) : Bool :=
  (c.toNat ≥ 65 && c.toNat ≤ 90) || (c.toNat ≥ 97 && c.toNat ≤ 122) ||
    (c.toNat ≥ 48 && c.toNat ≤ 57)

/-- The character class [a-zA-Z0-9_-]. -/
def isNameChar (c : Char) : Bool :=
  isAsciiAlnum c || c = '_' || c = '-'

/-- Membership in the full-string language of the regular expression
body [a-zA-Z0-9][a-zA-Z0-9_-]*. -/
def coreNameMatch : List Char → Bool
  | [] => false
  | c :: cs => isAsciiAlnum c && cs.all isNameChar

/-- Modelled from the spec: the target-name invariant, the pattern
read as an exactly anchored full-string language (used to state claims
about names that "match the pattern"). -/
def anchoredNamePattern (s : String) : Bool :=
  coreNameMatch s.data

/-- Truth value of VALID_TARGET_PATTERN.match(s) in Python: with no
MULTILINE flag, the dollar anchor matches at the end of the string and
also just before a single newline at the end of the string, so a
pattern-valid name followed by one trailing newline is accepted too. -/
def matchValidTarget (s : String) : Bool :=
  coreNameMatch s.data ||
    (match s.data.getLast? with
     | some c => c = '\n' && coreNameMatch s.data.dropLast
     | none => false)

example : matchValidTarget "build" = true := by decide
example : matchValidTarget "bad name" = false := by decide
example : matchValidTarget "a\n" = true := by decide
example : anchoredNamePattern "a\n" = false := by decide
example : matchValidTarget "a\n\n" = false := by decide
example : matchValidTarget "-x" = false := by decide

/-- A parsed Make target: the dictionary {"name": ..., "description": ...}
built by make.parse_makefile_targets, with None as the absent description. -/
structure Target where
  name : String
  description : Option String
deriving DecidableEq, Repr

/-- The loop state of make.parse_makefile_targets: the accumulated
targets list, the pending comment lines, and the pending inline
description. -/
structure PState where
  targets : List Target
  cc : List String
  cd : Option String
deriving DecidableEq, Repr

/-- Python line.split(":", 1)[0]: the text before the first colon
(the whole line when there is none). -/
def beforeColon (line : String) : String :=
  String.mk (line.data.takeWhile (fun c => c ≠ ':'))

/-- The text after the first occurrence of "##", when the line contains
one: Python line.split("##", 1)[1]. -/
def afterHashHash : List Char → Option (List Char)
  | [] => none
  | c :: cs =>
    match c, cs with
    | '#', '#' :: rest => some rest
    | _, _ => afterHashHash cs

/-- Python " ".join(parts). -/
def joinSpace : List String → String
  | [] => ""
  | [x] => x
  | x :: xs => x ++ " " ++ joinSpace xs

/-- Python's falsy-chain current_description or " ".join(current_comment)
or None: an empty string counts as absent. -/
def pyOrDesc (cd : Option String) (cc : List String) : Option String :=
  match cd with
  | some s => if s = "" then (if joinSpace cc = "" then none else some (joinSpace cc)) else some s
  | none => if joinSpace cc = "" then none else some (joinSpace cc)

/-- One iteration of the line loop in make.parse_makefile_targets.
The raw line is stripped first; a stripped line starting with a hash
accumulates a comment; otherwise a line containing a colon and not
starting with a tab (a test that can never fail after the strip) is a
candidate target line; any other line clears the pending comments. -/
def stepLine (st : PState) (raw : String) : PState :=
  let line := pyStrip raw
  if startsWithStr line "#" then
    { st with cc := st.cc ++ [pyStrip (String.mk (line.data.drop 1))] }
  else if line.data.contains ':' && !startsWithStr line "\t" then
    let target := pyStrip (beforeColon line)
    let cdNew :=
      match afterHashHash line.data with
      | some rest => some (pyStrip (String.mk rest))
      | none => st.cd
    let emitted :=
      if matchValidTarget target then st.targets ++ [⟨target, pyOrDesc cdNew st.cc⟩]
      else st.targets
    { targets := emitted, cc := [], cd := none }
  else
    { st with cc := [] }

/-- Python str.splitlines restricted to newline separators: empty input
yields no lines, and a trailing newline does not produce a final empty
line. (Python also recognizes other line terminators such as carriage
returns; the Makefile texts in scope use newlines.) -/
def pySplitlines (s : String) : List String :=
  if s.data.isEmpty then []
  else
    let parts := (splitChar '\n' s.data).map String.mk
    match s.data.getLast? with
    | some c => if c = '\n' then parts.dropLast else parts
    | none => parts

/-- make.parse_makefile_targets on the Makefile text (the file read and
the path validation around it are dropped; the claims quantify over the
text itself). -/
def parse_makefile_targets (content : String) : List Target :=
  ((pySplitlines content).foldl stepLine ⟨[], [], none⟩).targets

example : pySplitlines "a\nb\n" = ["a", "b"] := by decide
example : pySplitlines "" = [] := by decide
example : parse_makefile_targets "# builds it\nbuild: test ## Build the project\n" =
    [⟨"build", some "Build the project"⟩] := by decide
example : parse_makefile_targets "# one\n# two\nall: dep\n" =
    [⟨"all", some "one two"⟩] := by decide
example : parse_makefile_targets "\tdeploy: prod" = [⟨"deploy", none⟩] := by decide
example : parse_makefile_targets ".PHONY: all\n" = [] := by decide

/-- Process-management actions a run can perform on the child process.
The source can attempt a spawn; sending a graceful termination signal or
a forced kill never appears in execution.py, and the events exist here so
that their absence from a run's trace is meaningful. -/
inductive ExecEvent where
  | spawnAttempt (argv : List String)
  | terminateChild
  | killChild
deriving DecidableEq, Repr

/-- Outcome of the spawned child process, the oracle for one execution:
the spawn call itself fails, the process exits with a code and output
before the timeout, or the process is still running when the timeout
elapses. -/
inductive ProcOutcome where
  | spawnError
  | exited (code : Int) (out err : String)
  | stillRunning
deriving DecidableEq, Repr

/-- Result of ExecutionManager.run_target: normal return of the stdout
text, the ValueError for an invalid name, the MakefileError raised for a
non-zero exit or a timeout, or the uncaught operating-system error from
a failed spawn. -/
inductive RTResult where
  | ok (out : String)
  | valueError (msg : String)
  | makefileError (msg : String)
  | osError
deriving DecidableEq, Repr

/-- execution.ExecutionManager.run_target: validate the name against
VALID_TARGET_PATTERN before anything else; then spawn make with the name
as a single literal argument and wait with asyncio.wait_for. On timeout
the code catches asyncio.TimeoutError and raises MakefileError; it never
signals or kills the child, so no terminateChild or killChild event is
ever produced. Returns the event trace alongside the result. -/
def run_target (timeout : Nat) (target : String) (oc : ProcOutcome) :
    List ExecEvent × RTResult :=
  if matchValidTarget target then
    match oc with
    | ProcOutcome.spawnError =>
      ([ExecEvent.spawnAttempt ["make", target]], RTResult.osError)
    | ProcOutcome.exited code out err =>
      if code ≠ 0 then
        ([ExecEvent.spawnAttempt ["make", target]],
          RTResult.makefileError (String.mk ("Target execution failed: ".data ++ (pyStrip err).data)))
      else
        ([ExecEvent.spawnAttempt ["make", target]], RTResult.ok out)
    | ProcOutcome.stillRunning =>
      ([ExecEvent.spawnAttempt ["make", target]],
        RTResult.makefileError
          (String.mk ("Target execution exceeded ".data ++ (toString timeout).data ++ "s timeout".data)))
  else
    ([], RTResult.valueError (String.mk ("Invalid target name: ".data ++ target.data)))

example : run_target 1 "sleeper" ProcOutcome.stillRunning =
    ([ExecEvent.spawnAttempt ["make", "sleeper"]],
      RTResult.makefileError "Target execution exceeded 1s timeout") := by decide
example : run_target 300 "bad name" (ProcOutcome.exited 0 "" "") =
    ([], RTResult.valueError "Invalid target name: bad name") := by decide

/-- The only process-wide state the execution path mutates: the current
working directory, held as a resolved segment list. -/
structure World where
  cwd : List String
deriving DecidableEq, Repr

/-- How one scoped execution ends: the body returns normally, raises
MakefileError for a non-zero exit or a timeout, raises an
operating-system error from the spawn, or is cancelled by the caller. -/
inductive SessionOutcome where
  | success
  | nonzeroExit
  | timedOut
  | spawnFailed
  | cancelled
deriving DecidableEq, Repr

/-- execution.ExecutionManager used as an async context manager
(handlers.handle_call_tool): on entry the prior directory is recorded
and the process changes into the validated Makefile directory; the body
(run_target) performs no directory change on any of its paths; on exit,
which Python runs on every way of leaving the async-with block including
exceptions and cancellation, the recorded directory is restored. The
final world after the session is returned. -/
def executionSession (base_dir : List String) (w : World) (oc : SessionOutcome) : World :=
  let original := w.cwd
  let entered : World := { cwd := resolveSegs base_dir }
  let afterBody : World :=
    match oc with
    | SessionOutcome.success => entered
    | SessionOutcome.nonzeroExit => entered
    | SessionOutcome.timedOut => entered
    | SessionOutcome.spawnFailed => entered
    | SessionOutcome.cancelled => entered
  { afterBody with cwd := original }

/-- A JSON argument value for a tool call. The tool input schemas type
pattern and target as strings and timeout as an integer; values of other
JSON types are outside the declared schemas and are not modelled. -/
inductive ToolArg where
  | strV (s : String)
  | intV (n : Int)
deriving DecidableEq, Repr

/-- The dispatch decision handlers.handle_call_tool reaches after
processing its arguments: which branch runs and with which processed
values (the filter pattern for list-targets; the target name and the
timeout handed to ExecutionManager for run-target). -/
inductive ToolCall where
  | listTargets (pattern : String)
  | runTarget (target : String) (timeout : Int)
deriving DecidableEq, Repr

/-- Dictionary lookup arguments[k] on the arguments mapping modelled as
an association list. -/
def lookupArg (args : List (String × ToolArg)) (k : String) : Option ToolArg :=
  match args.find? (fun kv => kv.1 = k) with
  | some kv => some kv.2
  | none => none

/-- Python arguments.get(k, d) for a string-typed argument; a value of
the wrong JSON type is outside the tool's input schema and is treated as
absent. -/
def argStrD (args : List (String × ToolArg)) (k : String) (d : String) : String :=
  match lookupArg args k with
  | some (ToolArg.strV s) => s
  | _ => d

/-- Python int(arguments.get(k, d)) for an integer-typed argument
(int() is the identity on the schema's integers); a value of the wrong
JSON type is outside the tool's input schema and is treated as absent. -/
def argIntD (args : List (String × ToolArg)) (k : String) (d : Int) : Int :=
  match lookupArg args k with
  | some (ToolArg.intV n) => n
  | _ => d

/-- handlers.handle_call_tool up to its dispatch decision: a missing or
empty arguments mapping is rejected first (Python's falsy test covers
both None and the empty dictionary); list-targets reads its pattern with
default "*"; run-target requires the target key and computes the timeout
as min(int(arguments.get("timeout", 300)), 3600); unknown names fail.
The body each branch then runs is summarized by the ToolCall record of
the values handed to it. -/
def handle_call_tool (name : String) (arguments : Option (List (String × ToolArg))) :
    Except String ToolCall :=
  let falsy :=
    match arguments with
    | none => true
    | some args => args.isEmpty
  if falsy then Except.error "Tool arguments required"
  else
    let args := arguments.getD []
    if name = "list-targets" then
      Except.ok (ToolCall.listTargets (argStrD args "pattern" "*"))
    else if name = "run-target" then
      match lookupArg args "target" with
      | none => Except.error "Target name required"
      | some _ =>
        Except.ok (ToolCall.runTarget (argStrD args "target" "")
          (min (argIntD args "timeout" 300) 3600))
    else
      Except.error (String.mk ("Unknown tool: ".data ++ name.data))

example : handle_call_tool "list-targets" none = Except.error "Tool arguments required" := by
  decide
example : handle_call_tool "list-targets" (some []) = Except.error "Tool arguments required" := by
  decide
example : handle_call_tool "run-target"
    (some [("target", ToolArg.strV "build"), ("timeout", ToolArg.intV 9999)]) =
    Except.ok (ToolCall.runTarget "build" 3600) := by decide
example : handle_call_tool "run-target"
    (some [("target", ToolArg.strV "build"), ("timeout", ToolArg.intV 0)]) =
    Except.ok (ToolCall.runTarget "build" 0) := by decide

/-- server.MakeServer.run_make_target, the try/finally variant: record
the current directory, change into the Makefile directory inside the
try block, and restore the recorded directory in the finally block,
which Python runs on every exit path. -/
def run_make_target_world (makefile_dir : List String) (w : World) (oc : SessionOutcome) : World :=
  let original := w.cwd
  let entered : World := { cwd := resolveSegs makefile_dir }
  let afterBody : World :=
    match oc with
    | SessionOutcome.success => entered
    | SessionOutcome.nonzeroExit => entered
    | SessionOutcome.timedOut => entered
    | SessionOutcome.spawnFailed => entered
    | SessionOutcome.cancelled => entered
  { afterBody with cwd := original }

/-- C1: the claim says a sibling directory sharing a raw string prefix
with the base (base /a/b, candidate /a/bb) is treated as outside.  It is
not: get_validated_path decides containment by the raw string test
str(requested).startswith(str(base)), so resolving ../bb from /a/b
yields /a/bb, which passes the check and is returned, although /a/b is
not a segment-wise ancestor of /a/bb. -/
theorem get_validated_path_sibling_accepted :
    get_validated_path ["a", "b"] (some "../bb") = Except.ok ["a", "bb"]
    ∧ listLeads ["a", "b"] ["a", "bb"] = false
    ∧ startsWithStr (pathStr ["a", "bb"]) (pathStr ["a", "b"]) = true := by
  refine ⟨by decide, by decide, by decide⟩

/-- C2: on a timeout, run_target raises the MakefileError timeout
message but performs no process-management action beyond the original
spawn: the event trace of a timed-out execution contains neither a
graceful termination signal nor a forced kill, so the child process is
left running, contrary to the claim. -/
theorem run_target_timeout_never_terminates :
    run_target 1 "sleeper" ProcOutcome.stillRunning =
      ([ExecEvent.spawnAttempt ["make", "sleeper"]],
        RTResult.makefileError "Target execution exceeded 1s timeout")
    ∧ ExecEvent.terminateChild ∉ (run_target 1 "sleeper" ProcOutcome.stillRunning).1
    ∧ ExecEvent.killChild ∉ (run_target 1 "sleeper" ProcOutcome.stillRunning).1 := by
  refine ⟨by decide, by decide, by decide⟩

/-- C3: the claim says no Target is ever emitted from a line whose
original form begins with a tab.  The parser strips each line before
testing startswith of a tab, so the test can never fire: the recipe
line beginning with a tab character and containing a colon is parsed
as a target definition and the Target named deploy is emitted. -/
theorem parse_tab_line_emits_target :
    startsWithStr "\tdeploy: prod" "\t" = true
    ∧ parse_makefile_targets "\tdeploy: prod" = [⟨"deploy", none⟩] := by
  refine ⟨by decide, by decide⟩

/-- Helper: listLeads holds on any extension of the left list. -/
theorem listLeads_append {α : Type} [DecidableEq α] :
    ∀ (l m : List α), listLeads l (l ++ m) = true := by
  intro l
  induction l with
  | nil => intro m; rfl
  | cons a as ih => intro m; simp [listLeads, ih]

/-- C9: every failure of get_validated_path, including the boundary
violation raised inside its own try block, reaches the caller as a
SecurityError whose message begins with the wrapped form produced by
the blanket exception handler. -/
theorem get_validated_path_error_wrapped :
    ∀ (base_dir : List String) (subpath : Option String) (e : String),
      get_validated_path base_dir subpath = Except.error e →
      startsWithStr e "Invalid path:" = true := by
  intro b sub e h
  unfold get_validated_path at h
  cases hI : get_validated_path_inner b sub with
  | ok p => rw [hI] at h; cases h
  | error m =>
    rw [hI] at h
    cases h
    show listLeads "Invalid path:".data ("Invalid path: ".data ++ m.data) = true
    have hsplit : "Invalid path: ".data = "Invalid path:".data ++ [' '] := by decide
    rw [hsplit, List.append_assoc]
    exact listLeads_append _ _

/-- Witness for C9 at a concrete escaping subpath. -/
theorem get_validated_path_error_wrapped_witness :
    startsWithStr "Invalid path: Path access denied: outside project boundary"
      "Invalid path:" = true :=
  get_validated_path_error_wrapped ["a", "b"] (some "../../etc")
    "Invalid path: Path access denied: outside project boundary" (by decide)

/-- Counterexample to C5 as stated: the name consisting of the letter a
followed by a newline is outside the full-string language of the
pattern, yet Python's match accepts it (the dollar anchor also matches
just before a single trailing newline), so run_target spawns make with
that name as its literal argument instead of failing. -/
theorem run_target_newline_name_spawned :
    anchoredNamePattern "a\n" = false
    ∧ matchValidTarget "a\n" = true
    ∧ (run_target 300 "a\n" (ProcOutcome.exited 0 "" "")).1 =
        [ExecEvent.spawnAttempt ["make", "a\n"]] := by
  refine ⟨by decide, by decide, by decide⟩

/-- C5 amended: run_target validates the name with Python match
semantics (the pattern language, plus a pattern-valid name followed by
one trailing newline).  Every rejected name fails with the
invalid-target ValueError and an empty event trace, so no spawn is
attempted; every accepted name leads to a spawn of make with the name
as a single literal argument, whatever the process outcome. -/
theorem run_target_validates_before_spawn :
    ∀ (target : String) (timeout : Nat) (oc : ProcOutcome),
      (matchValidTarget target = false →
        run_target timeout target oc =
          ([], RTResult.valueError (String.mk ("Invalid target name: ".data ++ target.data))))
      ∧ (matchValidTarget target = true →
        ExecEvent.spawnAttempt ["make", target] ∈ (run_target timeout target oc).1) := by
  intro target timeout oc
  constructor
  · intro h
    simp [run_target, h]
  · intro h
    cases oc with
    | spawnError => simp [run_target, h]
    | exited code out err =>
      by_cases hc : code = 0 <;> simp [run_target, h, hc]
    | stillRunning => simp [run_target, h]

/-- Witness for C5 amended: a rejected name with a space produces the
ValueError and an empty trace; the accepted name build is spawned. -/
theorem run_target_validates_before_spawn_witness :
    run_target 300 "bad name" (ProcOutcome.exited 0 "" "") =
      ([], RTResult.valueError (String.mk ("Invalid target name: ".data ++ "bad name".data)))
    ∧ ExecEvent.spawnAttempt ["make", "build"] ∈
        (run_target 300 "build" (ProcOutcome.exited 0 "" "")).1 :=
  ⟨(run_target_validates_before_spawn "bad name" 300 (ProcOutcome.exited 0 "" "")).1 (by decide),
   (run_target_validates_before_spawn "build" 300 (ProcOutcome.exited 0 "" "")).2 (by decide)⟩

/-- C6: for every execution outcome - success, non-zero exit, timeout,
spawn failure, cancellation - both the context-manager variant and the
try/finally variant of the execution path leave the process-wide working
directory equal to the directory recorded on entry. -/
theorem execution_restores_cwd :
    ∀ (base_dir : List String) (w : World) (oc : SessionOutcome),
      (executionSession base_dir w oc).cwd = w.cwd
      ∧ (run_make_target_world base_dir w oc).cwd = w.cwd := by
  intro base_dir w oc
  exact ⟨rfl, rfl⟩

/-- Counterexample to C4 as stated: a caller-supplied timeout of zero is
passed through unchanged - the dispatcher computes min(0, 3600) = 0, so
the timeout actually used falls below the claimed floor of one. -/
theorem handle_call_tool_timeout_no_floor :
    handle_call_tool "run-target"
        (some [("target", ToolArg.strV "build"), ("timeout", ToolArg.intV 0)]) =
      Except.ok (ToolCall.runTarget "build" 0)
    ∧ ((0 : Int) < 1) := by
  refine ⟨by decide, by decide⟩

/-- C4 amended: the timeout handed to the execution manager is
min(input, 3600): it never exceeds 3600 regardless of input, but no
floor is applied, so inputs below one are used as given. -/
theorem handle_call_tool_timeout_ceiling :
    ∀ (name : String) (arguments : Option (List (String × ToolArg)))
      (target : String) (timeout : Int),
      handle_call_tool name arguments = Except.ok (ToolCall.runTarget target timeout) →
      timeout ≤ 3600 := by
  intro name arguments target timeout h
  cases arguments with
  | none => exact absurd h (by simp [handle_call_tool])
  | some args =>
    by_cases he : args.isEmpty = true
    · simp [handle_call_tool, he] at h
    · by_cases hl : name = "list-targets"
      · simp [handle_call_tool, he, hl] at h
      · by_cases hr : name = "run-target"
        · simp only [handle_call_tool, he, hl, hr, if_true, if_false, Bool.false_eq_true,
            Option.getD_some, ite_false, ite_true] at h
          cases hlk : lookupArg args "target" with
          | none => rw [hlk] at h; cases h
          | some a =>
            rw [hlk] at h
            cases h
            exact min_le_right _ _
        · simp [handle_call_tool, he, hl, hr] at h

/-- Witness for C4 amended: an input of 9999 is clamped to 3600. -/
theorem handle_call_tool_timeout_ceiling_witness : (3600 : Int) ≤ 3600 :=
  handle_call_tool_timeout_ceiling "run-target"
    (some [("target", ToolArg.strV "build"), ("timeout", ToolArg.intV 9999)])
    "build" 3600 (by decide)

/-- C10: a tool call with an absent arguments mapping or an empty one
fails with the ValueError requiring tool arguments, for every tool name
and hence before any dispatch on the name - in particular list-targets,
whose only parameter is optional, cannot be called without arguments. -/
theorem handle_call_tool_requires_arguments :
    ∀ (name : String),
      handle_call_tool name none = Except.error "Tool arguments required"
      ∧ handle_call_tool name (some []) = Except.error "Tool arguments required" := by
  intro name
  exact ⟨rfl, rfl⟩

/-- Helper: membership after one deletion step of the sanitizer loop. -/
theorem mem_envStep (e : List (String × String)) (a k v : String) :
    (k, v) ∈ envStep e a ↔ ((k, v) ∈ e ∧ (dangerousKey a = true → k ≠ a)) := by
  unfold envStep delKey
  by_cases hda : dangerousKey a = true
  · rw [if_pos hda]
    rw [List.mem_filter]
    simp [hda]
  · rw [if_neg hda]
    simp [hda]

/-- Helper: membership after the whole deletion loop, characterized by
the keys visited. -/
theorem mem_envFoldl :
    ∀ (ks : List String) (e : List (String × String)) (k v : String),
      (k, v) ∈ List.foldl envStep e ks ↔
        ((k, v) ∈ e ∧ (dangerousKey k = true → k ∉ ks)) := by
  intro ks
  induction ks with
  | nil => intro e k v; simp
  | cons a as ih =>
    intro e k v
    rw [List.foldl_cons, ih, mem_envStep]
    constructor
    · rintro ⟨⟨he, hne⟩, him⟩
      refine ⟨he, fun hd => ?_⟩
      rw [List.mem_cons]
      rintro (h1 | h2)
      · exact hne (h1 ▸ hd) h1
      · exact him hd h2
    · rintro ⟨he, him⟩
      refine ⟨⟨he, fun hda hka => ?_⟩, fun hd h2 => ?_⟩
      · have hdk : dangerousKey k = true := hka ▸ hda
        exact him hdk (List.mem_cons.mpr (Or.inl hka))
      · exact him hd (List.mem_cons.mpr (Or.inr h2))

/-- C7: the sanitized environment holds exactly the pairs of the input
whose key starts with none of LD_, DYLD_ and PATH (each surviving key
keeps its original value), and in particular no pair keyed PATH ever
survives, since PATH is its own prefix. -/
theorem get_safe_environment_spec :
    ∀ (env : List (String × String)) (k v : String),
      ((k, v) ∈ get_safe_environment env ↔
        ((k, v) ∈ env ∧ startsWithStr k "LD_" = false ∧ startsWithStr k "DYLD_" = false ∧
          startsWithStr k "PATH" = false))
      ∧ ("PATH", v) ∉ get_safe_environment env := by
  intro env k v
  have hmain : ∀ (k2 v2 : String),
      (k2, v2) ∈ get_safe_environment env ↔ ((k2, v2) ∈ env ∧ dangerousKey k2 = false) := by
    intro k2 v2
    unfold get_safe_environment
    rw [mem_envFoldl]
    constructor
    · rintro ⟨he, him⟩
      refine ⟨he, ?_⟩
      by_cases hd : dangerousKey k2 = true
      · exact absurd (List.mem_map_of_mem Prod.fst he) (him hd)
      · exact Bool.not_eq_true _ ▸ hd
    · rintro ⟨he, hd⟩
      exact ⟨he, fun hdt => absurd hdt (by simp [hd])⟩
  constructor
  · rw [hmain k v]
    unfold dangerousKey
    constructor
    · rintro ⟨he, hd⟩
      rcases Bool.or_eq_false_iff.mp hd with ⟨hd1, hd3⟩
      rcases Bool.or_eq_false_iff.mp hd1 with ⟨hl, hdy⟩
      exact ⟨he, hl, hdy, hd3⟩
    · rintro ⟨he, hl, hdy, hp⟩
      exact ⟨he, by rw [hl, hdy, hp]; rfl⟩
  · intro hmem
    have := (hmain "PATH" v).mp hmem
    have hfalse : dangerousKey "PATH" = false := this.2
    exact absurd hfalse (by decide)

/-- Helper: one parser step never removes an already-emitted target. -/
theorem stepLine_targets_mono (st : PState) (l : String) (x : Target)
    (hx : x ∈ st.targets) : x ∈ (stepLine st l).targets := by
  unfold stepLine
  dsimp only
  split
  · exact hx
  · split
    · split
      · exact List.mem_append_left _ hx
      · exact hx
    · exact hx

/-- Helper: the parser fold never removes an already-emitted target. -/
theorem foldl_targets_mono :
    ∀ (ls : List String) (st : PState) (x : Target),
      x ∈ st.targets → x ∈ (List.foldl stepLine st ls).targets := by
  intro ls
  induction ls with
  | nil => intro st x hx; exact hx
  | cons a as ih => intro st x hx; exact ih _ _ (stepLine_targets_mono _ _ _ hx)

/-- Helper: processing the inline-description line appends the build
target with the text after the double hash, trimmed, whatever the
surrounding parser state (the nonempty inline description takes the
falsy-chain priority over any accumulated comments). -/
theorem stepLine_build_line (st : PState) :
    stepLine st "build: test ## Build the project" =
      { targets := st.targets ++ [⟨"build", some "Build the project"⟩], cc := [], cd := none } :=
  rfl

/-- Helper: whenever the inline-description line occurs among the input
lines, the build target is in the fold's output. -/
theorem build_target_mem_foldl :
    ∀ (ls : List String) (st : PState),
      "build: test ## Build the project" ∈ ls →
      Target.mk "build" (some "Build the project") ∈ (List.foldl stepLine st ls).targets := by
  intro ls
  induction ls with
  | nil => intro st h; cases h
  | cons a as ih =>
    intro st h
    rcases List.mem_cons.mp h with h1 | h2
    · rw [List.foldl_cons, ← h1, stepLine_build_line]
      exact foldl_targets_mono as _ _ (List.mem_append_right _ (List.mem_singleton.mpr rfl))
    · rw [List.foldl_cons]
      exact ih _ h2

/-- C8: every Makefile text one of whose lines is
build: test ## Build the project parses to a target list containing the
Target named build whose description is the trimmed text after the
first double hash, which takes priority over accumulated comments. -/
theorem parse_inline_description :
    ∀ (content : String),
      "build: test ## Build the project" ∈ pySplitlines content →
      Target.mk "build" (some "Build the project") ∈ parse_makefile_targets content := by
  intro content h
  exact build_target_mem_foldl (pySplitlines content) ⟨[], [], none⟩ h

/-- Witness for C8 on the one-line Makefile text itself. -/
theorem parse_inline_description_witness :
    Target.mk "build" (some "Build the project") ∈
      parse_makefile_targets "build: test ## Build the project" :=
  parse_inline_description "build: test ## Build the project" (by decide)
